import Mathlib

/-!
Verification of the client-side state/filter/grouping/persistence core of
the ai-news-radar dashboard.  The JavaScript sources are shallowly embedded:
absent string fields are modelled as the empty string (matching the
coercions of the form x-or-empty in the code), the stable
Array.prototype.sort is modelled by List.mergeSort, the locale-sensitive
localeCompare with the zh-CN locale is an abstract integer-valued comparison
parameter, and browser primitives (fetch, localStorage, JSON.parse,
encodeURIComponent) appear either as explicit outcome parameters or as
specification-faithful models.
-/

namespace NewsRadar

open List (Perm)
open scoped List

/-- News item of the fetched snapshot.  String fields that may be absent in
the JSON are modelled as the empty string, which is exactly how the code
coerces them (absent and empty are both falsy). -/
structure Item where
  title : String
  title_zh : String
  title_en : String
  site_id : String
  site_name : String
  source : String
  url : String
deriving DecidableEq

/-- JavaScript string disjunction a-or-b: the empty string is the only
falsy string. -/
def jsOrS (a b : String) : String := if a = "" then b else a

/-- Part of the mutable state record of src/unnamed/part_001 that the
filtering pipeline reads. -/
structure FilterState where
  itemsAi : List Item
  itemsAll : List Item
  itemsAllRaw : List Item
  allDedup : Bool
  siteFilter : String
  query : String
  mode : String
deriving DecidableEq

/-- Function effectiveAllItems (part_001 lines 155-157): the dedup toggle
selects between the deduplicated and the raw "all" array. -/
def effectiveAllItems (s : FilterState) : List Item :=
  if s.allDedup then s.itemsAll else s.itemsAllRaw

/-- Function modeItems (part_001 lines 159-161): the mode-selected backing
array. -/
def modeItems (s : FilterState) : List Item :=
  if s.mode = "all" then effectiveAllItems s else s.itemsAi

/-- JavaScript String.prototype.trim: strip whitespace from both ends,
modelled on the character list. -/
def jsTrim (s : String) : String :=
  ⟨((s.data.dropWhile Char.isWhitespace).reverse.dropWhile
      Char.isWhitespace).reverse⟩

/-- JavaScript String.prototype.toLowerCase, modelled as per-character
lower-casing of the character list. -/
def strLower (s : String) : String := ⟨s.data.map Char.toLower⟩

/-- Contiguous-occurrence test behind String.prototype.includes: the
needle q occurs as a contiguous run inside the haystack. -/
def listContains (q : List Char) : List Char → Bool
  | [] => q.isPrefixOf []
  | s@(_ :: t) => q.isPrefixOf s || listContains q t

/-- String form of the includes test. -/
def strIncludes (s q : String) : Bool := listContains q.data s.data

/-- Search haystack of getFilteredItems (part_001 line 168): the five text
fields joined by single spaces, lowercased. -/
def hay (item : Item) : String :=
  strLower (jsOrS item.title "" ++ " " ++ jsOrS item.title_zh "" ++ " " ++
    jsOrS item.title_en "" ++ " " ++ jsOrS item.site_name "" ++ " " ++
    jsOrS item.source "")

/-- Function getFilteredItems (part_001 lines 163-171): drop items failing
the exact site filter, then (for a non-empty trimmed query) keep items whose
haystack contains the lowercased query. -/
def getFilteredItems (s : FilterState) : List Item :=
  let q := strLower (jsTrim s.query)
  (modeItems s).filter fun item =>
    if s.siteFilter ≠ "" && item.site_id ≠ s.siteFilter then false
    else if q = "" then true
    else strIncludes (hay item) q

/-- Concrete sample item on site hn. -/
def sampleA : Item :=
  { title := "Alpha", title_zh := "", title_en := "", site_id := "hn",
    site_name := "Hacker News", source := "top", url := "u1" }

/-- Second concrete sample item on a different site. -/
def sampleB : Item :=
  { title := "Beta", title_zh := "", title_en := "", site_id := "rd",
    site_name := "Reddit", source := "hot", url := "u2" }

/-- Concrete state with a whitespace-only query and no site filter. -/
def c1state : FilterState :=
  { itemsAi := [sampleA, sampleB], itemsAll := [], itemsAllRaw := [],
    allDedup := true, siteFilter := "", query := "  ", mode := "ai" }

/-- Concrete state whose site filter is hn. -/
def c2state : FilterState :=
  { itemsAi := [sampleA, sampleB], itemsAll := [], itemsAllRaw := [],
    allDedup := true, siteFilter := "hn", query := "", mode := "ai" }

/-- Per-field matching criterion in the words of the spec sentence for C3:
the trimmed lowercased query occurs inside at least one of the five fields,
each considered separately. -/
def perFieldMatch (q : String) (item : Item) : Bool :=
  let qq := strLower (jsTrim q)
  strIncludes (strLower item.title) qq ||
    strIncludes (strLower item.title_zh) qq ||
    strIncludes (strLower item.title_en) qq ||
    strIncludes (strLower item.site_name) qq ||
    strIncludes (strLower item.source) qq

/-- Item whose title fields let a query straddle a field boundary. -/
def c3item : Item :=
  { title := "a", title_zh := "b", title_en := "", site_id := "s1",
    site_name := "", source := "", url := "" }

/-- State searching for the two-word query over the straddling item. -/
def c3state : FilterState :=
  { itemsAi := [c3item], itemsAll := [], itemsAllRaw := [],
    allDedup := true, siteFilter := "", query := "a b", mode := "ai" }

/-- JavaScript comparator value of the form count difference or-else locale
compare: a zero count difference is falsy and falls through to the locale
compare of the names. -/
def jsCmp {α : Type} (count : α → Nat) (name : α → String)
    (lc : String → String → Int) (a b : α) : Int :=
  let d : Int := (count b : Int) - (count a : Int)
  if d ≠ 0 then d else lc (name a) (name b)

/-- Boolean "in order" relation induced by a JavaScript comparator; the
stable Array.prototype.sort is modelled as List.mergeSort over it. -/
def jsLe {α : Type} (count : α → Nat) (name : α → String)
    (lc : String → String → Int) (a b : α) : Bool :=
  jsCmp count name lc a b ≤ 0

/-- Push an item onto the bucket of key k, creating the bucket at the end
on first encounter (a JavaScript Map preserves insertion order). -/
def bucketPush (acc : List (String × List Item)) (k : String) (item : Item) :
    List (String × List Item) :=
  match acc with
  | [] => [(k, [item])]
  | (k', v) :: t =>
    if k' = k then (k', v ++ [item]) :: t else (k', v) :: bucketPush t k item

/-- Insertion-ordered grouping of items under a key function. -/
def groupPairs (key : Item → String) (items : List Item) :
    List (String × List Item) :=
  items.foldl (fun acc item => bucketPush acc (key item) item) []

/-- Function groupBySource (part_001 lines 217-228): bucket by source
(defaulting to "未分区"), sort buckets by descending size with the locale
compare on the key as tie-break. -/
def groupBySource (lc : String → String → Int) (items : List Item) :
    List (String × List Item) :=
  (groupPairs (fun item => jsOrS item.source "未分区") items).mergeSort
    (jsLe (fun g => g.2.length) (fun g => g.1) lc)

/-- Site bucket of renderGroupedBySiteAndSource: the display name is fixed
by the first item encountered for the site. -/
structure SiteGroup where
  siteId : String
  siteName : String
  items : List Item
deriving DecidableEq

/-- Push an item onto its site bucket (part_001 lines 245-253). -/
def sitePush (acc : List SiteGroup) (item : Item) : List SiteGroup :=
  match acc with
  | [] => [⟨item.site_id, jsOrS item.site_name item.site_id, [item]⟩]
  | g :: t =>
    if g.siteId = item.site_id then
      { g with items := g.items ++ [item] } :: t
    else g :: sitePush t item

/-- Insertion-ordered site map of renderGroupedBySiteAndSource. -/
def siteGroupsRaw (items : List Item) : List SiteGroup :=
  items.foldl sitePush []

/-- Sorted site-level grouping of renderGroupedBySiteAndSource (part_001
lines 255-259). -/
def siteGroups (lc : String → String → Int) (items : List Item) :
    List SiteGroup :=
  (siteGroupsRaw items).mergeSort
    (jsLe (fun g => g.items.length) (fun g => g.siteName) lc)

/-- Per-site counter row of computeSiteStats. -/
structure SiteStat where
  site_id : String
  site_name : String
  count : Nat
  raw_count : Nat
deriving DecidableEq

/-- One step of the counting loop of computeSiteStats (part_001
lines 85-92). -/
def statPush (acc : List SiteStat) (item : Item) : List SiteStat :=
  match acc with
  | [] => [⟨item.site_id, item.site_name, 1, 1⟩]
  | r :: t =>
    if r.site_id = item.site_id then
      { r with count := r.count + 1, raw_count := r.raw_count + 1 } :: t
    else r :: statPush t item

/-- Function computeSiteStats (part_001 lines 83-94). -/
def computeSiteStats (lc : String → String → Int) (items : List Item) :
    List SiteStat :=
  (items.foldl statPush []).mergeSort
    (jsLe (fun r => r.count) (fun r => r.site_name) lc)

/-- Ordering "earlier group beats later group": strictly larger count, or
equal count and locale-ascending name. -/
def byCountDesc {α : Type} (count : α → Nat) (name : α → String)
    (lc : String → String → Int) (a b : α) : Prop :=
  count b < count a ∨ (count b = count a ∧ lc (name a) (name b) ≤ 0)

/-- What the item template's title element shows: a bilingual pair (zh
primary with en subtitle) or a single text. -/
inductive TitleView
  | bilingual (zh en : String)
  | single (text : String)
deriving DecidableEq

/-- Function pickTitle (src/assets/app.js lines 66-68, also in part_000):
first truthy of title, title_zh, title_en, else the placeholder. -/
def pickTitle (item : Item) : String :=
  jsOrS item.title (jsOrS item.title_zh (jsOrS item.title_en "无标题"))

/-- Title logic of renderItemNode (part_001 lines 179-193, identical in
part_002 lines 38-52): when both trimmed translations exist and differ they
are shown as a bilingual pair, otherwise title or-else zh or-else en. -/
def renderTitle (item : Item) : TitleView :=
  let zh := jsTrim item.title_zh
  let en := jsTrim item.title_en
  if zh ≠ "" ∧ en ≠ "" ∧ zh ≠ en then .bilingual zh en
  else .single (jsOrS item.title (jsOrS zh en))

/-- Main (primary) title text a title view displays. -/
def TitleView.primaryText : TitleView → String
  | .bilingual zh _ => zh
  | .single t => t

/-- Item carrying a full trilingual title set. -/
def c6item : Item :=
  { title := "primary", title_zh := "zh-title", title_en := "en-title",
    site_id := "s", site_name := "S", source := "src", url := "" }

/-- Fetched snapshot payload (FeedSnapshot): the fields the loaders read.
A none models an absent JSON field; a present empty array is truthy in
JavaScript and is modelled as some of the empty list. -/
structure Payload where
  items_ai : Option (List Item)
  items : Option (List Item)
  items_all_raw : Option (List Item)
  items_all : Option (List Item)
  total_items : Option Nat
  total_items_raw : Option Nat
  total_items_all_mode : Option Nat
  follow_opml_items : Option (List Item)
  generated_at : Option String

/-- Fetch response as the loader sees it: the HTTP status plus the outcome
of reading the JSON body (a parse failure rejects). -/
structure FetchResponse where
  status : Nat
  jsonBody : Except String Payload

/-- Property ok of a Fetch API response: status in the inclusive range
200-299. -/
def respOk (r : FetchResponse) : Bool := 200 ≤ r.status && r.status ≤ 299

/-- Function loadNewsData (part_001 lines 329-333; identical in
src/assets/app.js lines 74-78 and part_002 lines 151-155): one fetch, throw
on a non-ok status with the status in the message, otherwise return the
parsed JSON. -/
def loadNewsData (r : FetchResponse) : Except String Payload :=
  if respOk r then r.jsonBody
  else .error ("加载 latest-24h.json 失败: " ++ toString r.status)

/-- Payload with every optional field absent. -/
def emptyPayload : Payload :=
  { items_ai := none, items := none, items_all_raw := none, items_all := none,
    total_items := none, total_items_raw := none,
    total_items_all_mode := none, follow_opml_items := none,
    generated_at := none }

/-- Concrete HTTP 500 response. -/
def resp500 : FetchResponse := { status := 500, jsonBody := .ok emptyPayload }

/-- JavaScript or-else on an optional item array: an absent field falls
through; a present (even empty) array is kept. -/
def jsOrA (a : Option (List Item)) (b : List Item) : List Item :=
  match a with
  | some v => v
  | none => b

/-- JavaScript or-else on an optional numeric total: absent and zero both
fall through to the fallback. -/
def jsOrN (a : Option Nat) (b : Nat) : Nat :=
  match a with
  | some n => if n = 0 then b else n
  | none => b

/-- Content of the news-list container after init: rendered items, or the
error text that replaces them on a failed load. -/
inductive ListSink
  | rendered (filteredItems : List Item)
  | errorText (msg : String)
deriving DecidableEq

/-- View fields written by init of part_001: the state item collections,
the totals, and the two DOM sinks the routine assigns. -/
structure InitOutcome where
  itemsAi : List Item
  itemsAll : List Item
  itemsAllRaw : List Item
  totalAi : Nat
  totalRaw : Nat
  totalAllMode : Nat
  followOpmlItems : List Item
  updatedAtText : String
  newsList : ListSink

/-- Function init (part_001 lines 335-362) as a function of the load
outcome, starting from the initial empty state (the script runs init once
at page load).  The fmt parameter abstracts the fmtTime date formatter. -/
def init (fmt : Option String → String) (r : Except String Payload) :
    InitOutcome :=
  match r with
  | .ok payload =>
    let itemsAi := jsOrA payload.items_ai (jsOrA payload.items [])
    let itemsAllRaw := jsOrA payload.items_all_raw
      (jsOrA payload.items_all (jsOrA payload.items []))
    let itemsAll := jsOrA payload.items_all (jsOrA payload.items [])
    { itemsAi := itemsAi
      itemsAll := itemsAll
      itemsAllRaw := itemsAllRaw
      totalAi := jsOrN payload.total_items itemsAi.length
      totalRaw := jsOrN payload.total_items_raw itemsAllRaw.length
      totalAllMode := jsOrN payload.total_items_all_mode itemsAll.length
      followOpmlItems := jsOrA payload.follow_opml_items []
      updatedAtText := "更新时间：" ++ fmt payload.generated_at
      newsList := ListSink.rendered itemsAi }
  | .error msg =>
    { itemsAi := [], itemsAll := [], itemsAllRaw := [], totalAi := 0,
      totalRaw := 0, totalAllMode := 0, followOpmlItems := [],
      updatedAtText := "新闻数据加载失败",
      newsList := ListSink.errorText msg }

/-- Follow-subscription group of the Vue variant payload. -/
structure FollowGroup where
  source : String
  items : List Item
deriving DecidableEq

/-- Payload fields the Vue variant (src/assets/app.js) reads. -/
structure VuePayload where
  follow_opml_items : Option (List Item)
  follow_opml_groups : Option (List FollowGroup)
  momoyu_items : Option (List Item)
  generated_at : Option String

/-- Vue component data after mounted completes. -/
structure MountedState where
  followItems : List Item
  followGroups : List FollowGroup
  momoyuItems : List Item
  generatedAt : Option String
  loadError : String

/-- JavaScript or-else on an optional group array. -/
def jsOrG (a : Option (List FollowGroup)) (b : List FollowGroup) :
    List FollowGroup :=
  match a with
  | some v => v
  | none => b

/-- Function mounted (src/assets/app.js lines 80-97) as a function of the
load outcome: assigns payload fields on success, resets every collection
and records the error message on failure. -/
def mounted (r : Except String VuePayload) : MountedState :=
  match r with
  | .ok p =>
    { followItems := jsOrA p.follow_opml_items []
      followGroups := jsOrG p.follow_opml_groups []
      momoyuItems := jsOrA p.momoyu_items []
      generatedAt :=
        match p.generated_at with
        | some s => if s = "" then none else some s
        | none => none
      loadError := "" }
  | .error msg =>
    { followItems := [], followGroups := [], momoyuItems := [],
      generatedAt := none,
      loadError := if msg = "" then "数据加载失败" else msg }

/-- Computed updatedLabel of the Vue variant (app.js lines 40-43). -/
def updatedLabel (fmt : Option String → String) (s : MountedState) : String :=
  if s.loadError ≠ "" then "数据加载失败"
  else "更新时间：" ++ fmt s.generatedAt

/-- Computed followEmptyText of the Vue variant (app.js lines 44-46). -/
def followEmptyText (s : MountedState) : String :=
  jsOrS s.loadError "暂无 follow.opml 数据。"

/-- Concrete load-failure message, as produced by an HTTP 500. -/
def c8err : String := "加载 latest-24h.json 失败: 500"

/-- JSON value, as produced by JSON.parse. -/
inductive Json
  | null
  | bool (b : Bool)
  | num (n : Int)
  | str (s : String)
  | arr (elems : List Json)
  | obj (fields : List (String × Json))

/-- JavaScript truthiness of a JSON value. -/
def Json.truthy : Json → Bool
  | .null => false
  | .bool b => b
  | .num n => n ≠ 0
  | .str s => s ≠ ""
  | .arr _ => true
  | .obj _ => true

/-- Test corresponding to a typeof check against "object" on a parsed JSON
value: objects, arrays and null all qualify. -/
def Json.isTypeofObject : Json → Bool
  | .null => true
  | .arr _ => true
  | .obj _ => true
  | _ => false

/-- Test for a plain object literal (not an array, not null). -/
def Json.isObj : Json → Bool
  | .obj _ => true
  | _ => false

/-- Function readAccordionState (part_001 lines 35-44).  The getItem
argument is the outcome of the localStorage read (error for a thrown
storage failure, none for a missing key) and parse abstracts JSON.parse
(error for a parse throw); both are external browser primitives.  All
failures collapse to the empty object. -/
def readAccordionState (parse : String → Except Unit Json)
    (getItem : Except Unit (Option String)) : Json :=
  match getItem with
  | .error _ => .obj []
  | .ok none => .obj []
  | .ok (some raw) =>
    if raw = "" then .obj []
    else
      match parse raw with
      | .error _ => .obj []
      | .ok parsed =>
        if parsed.truthy && parsed.isTypeofObject then parsed else .obj []

/-- Function writeAccordionState (part_001 lines 46-52): the setItem outcome
is swallowed by the try/catch; the function always returns normally. -/
def writeAccordionState (setItem : Except Unit Unit) : Except Unit Unit :=
  match setItem with
  | .ok _ => .ok ()
  | .error _ => .ok ()

/-- JavaScript property assignment on an insertion-ordered field list:
update in place when the key exists, else append. -/
def jsSet : List (String × Bool) → String → Bool → List (String × Bool)
  | [], k, b => [(k, b)]
  | (k', v) :: t, k, b =>
    if k' = k then (k', b) :: t else (k', v) :: jsSet t k b

/-- Property lookup on an insertion-ordered field list. -/
def jsGet (m : List (String × Bool)) (k : String) : Option Bool :=
  match m with
  | [] => none
  | (k', v) :: t => if k' = k then some v else jsGet t k

/-- JSON image of an accordion boolean map, as JSON.stringify followed by
JSON.parse reproduces it (round-trip contract of the external primitives
on plain objects). -/
def accJson (m : List (String × Bool)) : Json :=
  Json.obj (m.map fun p => (p.1, Json.bool p.2))

/-- UTF-8 byte sequence of a Unicode code point, as encodeURIComponent
percent-encodes it. -/
def utf8Bytes (n : Nat) : List Nat :=
  if n < 128 then [n]
  else if n < 2048 then [192 + n / 64, 128 + n % 64]
  else if n < 65536 then [224 + n / 4096, 128 + n / 64 % 64, 128 + n % 64]
  else [240 + n / 262144, 128 + n / 4096 % 64, 128 + n / 64 % 64, 128 + n % 64]

/-- Uppercase hexadecimal digit characters (argument below sixteen). -/
def hexDigit : Nat → Char
  | 0 => '0' | 1 => '1' | 2 => '2' | 3 => '3' | 4 => '4'
  | 5 => '5' | 6 => '6' | 7 => '7' | 8 => '8' | 9 => '9'
  | 10 => 'A' | 11 => 'B' | 12 => 'C' | 13 => 'D' | 14 => 'E'
  | _ => 'F'

/-- Percent escape of one byte. -/
def pctByte (b : Nat) : List Char := ['%', hexDigit (b / 16), hexDigit (b % 16)]

/-- Characters encodeURIComponent leaves unescaped: ASCII letters, digits,
and the marks minus underscore dot exclamation tilde star apostrophe and
parentheses. -/
def isUnreserved (c : Char) : Bool :=
  ('A' ≤ c && c ≤ 'Z') || ('a' ≤ c && c ≤ 'z') || ('0' ≤ c && c ≤ '9') ||
    c = '-' || c = '_' || c = '.' || c = '!' || c = '~' || c = '*' ||
    c = Char.ofNat 39 || c = '(' || c = ')'

/-- Encoding of one character by encodeURIComponent. -/
def encChar (c : Char) : List Char :=
  if isUnreserved c then [c] else (utf8Bytes c.toNat).flatMap pctByte

/-- Model of the external builtin encodeURIComponent, by its
specification: unreserved characters kept, all others percent-encoded as
their UTF-8 bytes. -/
def encodeURIComponent (s : String) : String := ⟨s.data.flatMap encChar⟩

/-- Function makeAccordionId (part_001 lines 54-56): encode each part with
encodeURIComponent and join with the bar character.  On string parts the
inner String conversion with the or-empty guard is the identity. -/
def makeAccordionId (parts : List String) : String :=
  String.intercalate "|" (parts.map encodeURIComponent)

/-- Separator-prefixed flattening of the tail parts of a bar join. -/
def barTail (xs : List (List Char)) : List Char :=
  xs.flatMap (fun a => '|' :: a)

/-- Occurrence characterisation of listContains. -/
theorem listContains_iff (q s : List Char) :
    listContains q s = true ↔ ∃ l r, s = l ++ q ++ r := by
  induction s with
  | nil =>
    simp only [listContains, List.isPrefixOf_iff_prefix]
    constructor
    · intro h
      exact ⟨[], [], by simp [List.prefix_nil.mp h]⟩
    · rintro ⟨l, r, h⟩
      cases l with
      | nil =>
        have h2 := List.append_eq_nil.mp (by simpa using h.symm)
        simp [h2.1]
      | cons a t => simp at h
  | cons a t ih =>
    simp only [listContains, Bool.or_eq_true, List.isPrefixOf_iff_prefix, ih]
    constructor
    · rintro (h | ⟨l, r, h⟩)
      · obtain ⟨r, hr⟩ := h
        exact ⟨[], r, by simp [hr]⟩
      · exact ⟨a :: l, r, by simp [h]⟩
    · rintro ⟨l, r, h⟩
      cases l with
      | nil =>
        left
        exact ⟨r, by simpa using h.symm⟩
      | cons b t' =>
        right
        rw [List.cons_append, List.cons_append, List.cons.injEq] at h
        exact ⟨t', r, h.2⟩

/-- Lower-casing sends only the empty string to the empty string. -/
theorem strLower_eq_empty {s : String} (h : strLower s = "") : s = "" := by
  have hd := congrArg String.data h
  simp only [strLower, List.map_eq_nil_iff] at hd
  cases s
  simp_all

/-- C1: with an empty (or whitespace-only: the query is trimmed) query and
an empty site filter, getFilteredItems returns the full mode-selected array
unchanged, same elements in the same order. -/
theorem c1_empty_query_filter_identity (s : FilterState)
    (hq : jsTrim s.query = "") (hf : s.siteFilter = "") :
    getFilteredItems s = modeItems s := by
  unfold getFilteredItems
  rw [hq, hf]
  simp [List.filter_eq_self, strLower]

/-- Witness for C1 at a concrete state. -/
theorem c1_empty_query_filter_identity_witness :
    jsTrim c1state.query = "" ∧ c1state.siteFilter = "" ∧
      getFilteredItems c1state = modeItems c1state :=
  ⟨by decide, rfl, c1_empty_query_filter_identity c1state (by decide) rfl⟩

/-- C2: with a non-empty site filter, every item returned by
getFilteredItems has exactly that site id. -/
theorem c2_site_filter_exact (s : FilterState) (item : Item)
    (hf : s.siteFilter ≠ "") (h : item ∈ getFilteredItems s) :
    item.site_id = s.siteFilter := by
  unfold getFilteredItems at h
  rw [List.mem_filter] at h
  by_contra hne
  have h2 := h.2
  simp [hf, hne] at h2

/-- Witness for C2: with the hn filter, sampleA survives and the theorem
pins its site id. -/
theorem c2_site_filter_exact_witness :
    c2state.siteFilter ≠ "" ∧ sampleA ∈ getFilteredItems c2state ∧
      sampleA.site_id = c2state.siteFilter :=
  ⟨by decide, by decide,
    c2_site_filter_exact c2state sampleA (by decide) (by decide)⟩

/-- C3 as stated is false: the two-word query matches none of the five
fields of the straddling item separately, yet the item is retained, because
the code matches against the space-joined concatenation of the fields. -/
theorem c3_counterexample :
    c3item ∈ getFilteredItems c3state ∧
      perFieldMatch c3state.query c3item = false := by
  decide

/-- C3 amended: for a non-empty (trimmed) query, membership is decided by
the exact site-id filter together with a case-insensitive substring match
against the single space-joined concatenation of title, title_zh, title_en,
site_name and source, not field by field. -/
theorem c3_amended_concat_match (s : FilterState) (item : Item)
    (hq : jsTrim s.query ≠ "") :
    item ∈ getFilteredItems s ↔ item ∈ modeItems s ∧
      (s.siteFilter = "" ∨ item.site_id = s.siteFilter) ∧
      strIncludes (hay item) (strLower (jsTrim s.query)) = true := by
  have hq' : strLower (jsTrim s.query) ≠ "" := fun h => hq (strLower_eq_empty h)
  simp only [getFilteredItems, List.mem_filter]
  refine and_congr_right fun _ => ?_
  constructor
  · intro h
    by_cases hsf : s.siteFilter = ""
    · exact ⟨Or.inl hsf, by simpa [hsf, hq'] using h⟩
    · by_cases hid : item.site_id = s.siteFilter
      · exact ⟨Or.inr hid, by simpa [hid, hq'] using h⟩
      · simp [hsf, hid] at h
  · rintro ⟨hsf | hid, hmatch⟩
    · simpa [hsf, hq'] using hmatch
    · simpa [hid, hq'] using hmatch

/-- Witness for the amended C3 at the concrete straddling state. -/
theorem c3_amended_concat_match_witness :
    jsTrim c3state.query ≠ "" ∧
      (c3item ∈ getFilteredItems c3state ↔ c3item ∈ modeItems c3state ∧
        (c3state.siteFilter = "" ∨ c3item.site_id = c3state.siteFilter) ∧
        strIncludes (hay c3item) (strLower (jsTrim c3state.query)) = true) :=
  ⟨by decide, c3_amended_concat_match c3state c3item (by decide)⟩

/-- Flattening a bucketPush result appends the new item, up to
permutation. -/
theorem bucketPush_flatMap (acc : List (String × List Item)) (k : String)
    (item : Item) :
    (bucketPush acc k item).flatMap (fun g => g.2) ~
      acc.flatMap (fun g => g.2) ++ [item] := by
  induction acc with
  | nil => simp [bucketPush]
  | cons g t ih =>
    obtain ⟨k', v⟩ := g
    simp only [bucketPush]
    split_ifs with h
    · simp only [List.flatMap_cons, List.append_assoc]
      exact (List.perm_append_left_iff v).mpr List.perm_append_comm
    · simp only [List.flatMap_cons, List.append_assoc]
      exact (List.perm_append_left_iff v).mpr ih

/-- The grouping loop is permutation-preserving. -/
theorem groupPairs_flatMap_perm (key : Item → String) (items : List Item) :
    (groupPairs key items).flatMap (fun g => g.2) ~ items := by
  suffices h : ∀ acc : List (String × List Item),
      (items.foldl (fun acc item => bucketPush acc (key item) item)
          acc).flatMap (fun g => g.2) ~ acc.flatMap (fun g => g.2) ++ items by
    simpa using h []
  induction items with
  | nil => intro acc; simp
  | cons x xs ih =>
    intro acc
    simp only [List.foldl_cons]
    refine (ih (bucketPush acc (key x) x)).trans ?_
    have h1 := bucketPush_flatMap acc (key x) x
    calc (bucketPush acc (key x) x).flatMap (fun g => g.2) ++ xs
        ~ (acc.flatMap (fun g => g.2) ++ [x]) ++ xs := h1.append_right xs
      _ = acc.flatMap (fun g => g.2) ++ (x :: xs) := by simp

/-- Flattening a sitePush result appends the new item, up to permutation. -/
theorem sitePush_flatMap (acc : List SiteGroup) (item : Item) :
    (sitePush acc item).flatMap (fun g => g.items) ~
      acc.flatMap (fun g => g.items) ++ [item] := by
  induction acc with
  | nil => simp [sitePush]
  | cons g t ih =>
    simp only [sitePush]
    split_ifs with h
    · simp only [List.flatMap_cons, List.append_assoc]
      exact (List.perm_append_left_iff g.items).mpr List.perm_append_comm
    · simp only [List.flatMap_cons, List.append_assoc]
      exact (List.perm_append_left_iff g.items).mpr ih

/-- The site-bucketing loop is permutation-preserving. -/
theorem siteGroupsRaw_flatMap_perm (items : List Item) :
    (siteGroupsRaw items).flatMap (fun g => g.items) ~ items := by
  suffices h : ∀ acc : List SiteGroup,
      (items.foldl sitePush acc).flatMap (fun g => g.items) ~
        acc.flatMap (fun g => g.items) ++ items by
    simpa using h []
  induction items with
  | nil => intro acc; simp
  | cons x xs ih =>
    intro acc
    simp only [List.foldl_cons]
    refine (ih (sitePush acc x)).trans ?_
    calc (sitePush acc x).flatMap (fun g => g.items) ++ xs
        ~ (acc.flatMap (fun g => g.items) ++ [x]) ++ xs :=
          (sitePush_flatMap acc x).append_right xs
      _ = acc.flatMap (fun g => g.items) ++ (x :: xs) := by simp

/-- C4: both grouping passes partition their input: the flattened groups
are a permutation of the input (every item lands in exactly one group) and
the per-group counts sum to the input length, for groupBySource and for the
site-level grouping of renderGroupedBySiteAndSource. -/
theorem c4_grouping_partitions (lc : String → String → Int)
    (items : List Item) :
    (groupBySource lc items).flatMap (fun g => g.2) ~ items ∧
    ((groupBySource lc items).map (fun g => g.2.length)).sum = items.length ∧
    (siteGroups lc items).flatMap (fun g => g.items) ~ items ∧
    ((siteGroups lc items).map (fun g => g.items.length)).sum =
      items.length := by
  have h1 : (groupBySource lc items).flatMap (fun g => g.2) ~ items := by
    refine List.Perm.trans ?_
      (groupPairs_flatMap_perm (fun item => jsOrS item.source "未分区") items)
    exact (List.mergeSort_perm _ _).flatMap_right _
  have h2 : (siteGroups lc items).flatMap (fun g => g.items) ~ items := by
    refine List.Perm.trans ?_ (siteGroupsRaw_flatMap_perm items)
    exact (List.mergeSort_perm _ _).flatMap_right _
  refine ⟨h1, ?_, h2, ?_⟩
  · have := h1.length_eq
    simpa [List.length_flatMap] using this
  · have := h2.length_eq
    simpa [List.length_flatMap] using this

/-- Unfolding of jsLe: descending count with locale tie-break. -/
theorem jsLe_iff {α : Type} (count : α → Nat) (name : α → String)
    (lc : String → String → Int) (a b : α) :
    jsLe count name lc a b = true ↔
      count b < count a ∨ (count b = count a ∧ lc (name a) (name b) ≤ 0) := by
  simp only [jsLe, jsCmp, decide_eq_true_eq]
  split_ifs with h
  · constructor
    · intro h1; left; omega
    · rintro (h1 | ⟨h1, _⟩)
      · omega
      · omega
  · have hc : count b = count a := by omega
    simp [hc, lt_self_iff_false]

/-- Transitivity of jsLe, granted a transitive locale compare. -/
theorem jsLe_trans {α : Type} (count : α → Nat) (name : α → String)
    (lc : String → String → Int)
    (hT : ∀ x y z, lc x y ≤ 0 → lc y z ≤ 0 → lc x z ≤ 0)
    (a b c : α) (hab : jsLe count name lc a b) (hbc : jsLe count name lc b c) :
    jsLe count name lc a c := by
  rw [jsLe_iff] at hab hbc ⊢
  rcases hab with h1 | ⟨h1, h1'⟩ <;> rcases hbc with h2 | ⟨h2, h2'⟩
  · left; omega
  · left; omega
  · left; omega
  · exact Or.inr ⟨by omega, hT _ _ _ h1' h2'⟩

/-- Totality of jsLe, granted a total locale compare. -/
theorem jsLe_total {α : Type} (count : α → Nat) (name : α → String)
    (lc : String → String → Int)
    (hT : ∀ x y, lc x y ≤ 0 ∨ lc y x ≤ 0) (a b : α) :
    jsLe count name lc a b || jsLe count name lc b a := by
  rw [Bool.or_eq_true, jsLe_iff, jsLe_iff]
  rcases Nat.lt_trichotomy (count a) (count b) with h | h | h
  · right; left; omega
  · rcases hT (name a) (name b) with h' | h'
    · exact Or.inl (Or.inr ⟨by omega, h'⟩)
    · exact Or.inr (Or.inr ⟨by omega, h'⟩)
  · left; left; omega

/-- A comparator tie is accepted by jsLe. -/
theorem jsLe_of_cmp_eq_zero {α : Type} (count : α → Nat) (name : α → String)
    (lc : String → String → Int) (a b : α)
    (h : jsCmp count name lc a b = 0) : jsLe count name lc a b = true := by
  simp [jsLe, h]

/-- C5: computeSiteStats, groupBySource and the site-level grouping are
each sorted descending by count with locale-ascending names on ties, and
the sort is stable: any comparator-tied pair keeps its first-encounter
order. -/
theorem c5_sorted_descending_stable (lc : String → String → Int)
    (hTrans : ∀ x y z, lc x y ≤ 0 → lc y z ≤ 0 → lc x z ≤ 0)
    (hTotal : ∀ x y, lc x y ≤ 0 ∨ lc y x ≤ 0) (items : List Item) :
    ((computeSiteStats lc items).Pairwise
        (byCountDesc (fun r => r.count) (fun r => r.site_name) lc) ∧
      ∀ a b : SiteStat,
        jsCmp (fun r => r.count) (fun r => r.site_name) lc a b = 0 →
        [a, b] <+ items.foldl statPush [] →
        [a, b] <+ computeSiteStats lc items) ∧
    ((groupBySource lc items).Pairwise
        (byCountDesc (fun g => g.2.length) (fun g => g.1) lc) ∧
      ∀ a b : String × List Item,
        jsCmp (fun g => g.2.length) (fun g => g.1) lc a b = 0 →
        [a, b] <+ groupPairs (fun item => jsOrS item.source "未分区") items →
        [a, b] <+ groupBySource lc items) ∧
    ((siteGroups lc items).Pairwise
        (byCountDesc (fun g => g.items.length) (fun g => g.siteName) lc) ∧
      ∀ a b : SiteGroup,
        jsCmp (fun g => g.items.length) (fun g => g.siteName) lc a b = 0 →
        [a, b] <+ siteGroupsRaw items →
        [a, b] <+ siteGroups lc items) := by
  refine ⟨⟨?_, ?_⟩, ⟨?_, ?_⟩, ⟨?_, ?_⟩⟩
  · exact (List.sorted_mergeSort
        (jsLe_trans _ _ lc hTrans) (jsLe_total _ _ lc hTotal) _).imp
      fun h => (jsLe_iff _ _ lc _ _).mp h
  · intro a b hcmp hsub
    exact List.pair_sublist_mergeSort
      (jsLe_trans _ _ lc hTrans) (jsLe_total _ _ lc hTotal)
      (jsLe_of_cmp_eq_zero _ _ lc a b hcmp) hsub
  · exact (List.sorted_mergeSort
        (jsLe_trans _ _ lc hTrans) (jsLe_total _ _ lc hTotal) _).imp
      fun h => (jsLe_iff _ _ lc _ _).mp h
  · intro a b hcmp hsub
    exact List.pair_sublist_mergeSort
      (jsLe_trans _ _ lc hTrans) (jsLe_total _ _ lc hTotal)
      (jsLe_of_cmp_eq_zero _ _ lc a b hcmp) hsub
  · exact (List.sorted_mergeSort
        (jsLe_trans _ _ lc hTrans) (jsLe_total _ _ lc hTotal) _).imp
      fun h => (jsLe_iff _ _ lc _ _).mp h
  · intro a b hcmp hsub
    exact List.pair_sublist_mergeSort
      (jsLe_trans _ _ lc hTrans) (jsLe_total _ _ lc hTotal)
      (jsLe_of_cmp_eq_zero _ _ lc a b hcmp) hsub

/-- Witness for C5: the constant-zero locale compare satisfies both
hypotheses, and the theorem applies at a concrete item list. -/
theorem c5_sorted_descending_stable_witness :
    (∀ x y z : String,
        (fun (_ _ : String) => (0 : Int)) x y ≤ 0 →
        (fun (_ _ : String) => (0 : Int)) y z ≤ 0 →
        (fun (_ _ : String) => (0 : Int)) x z ≤ 0) ∧
    (∀ x y : String,
        (fun (_ _ : String) => (0 : Int)) x y ≤ 0 ∨
        (fun (_ _ : String) => (0 : Int)) y x ≤ 0) ∧
    (((computeSiteStats (fun _ _ => 0) [sampleA, sampleB]).Pairwise
        (byCountDesc (fun r => r.count) (fun r => r.site_name)
          (fun _ _ => 0)) ∧
      ∀ a b : SiteStat,
        jsCmp (fun r => r.count) (fun r => r.site_name)
            (fun _ _ => 0) a b = 0 →
        [a, b] <+ [sampleA, sampleB].foldl statPush [] →
        [a, b] <+ computeSiteStats (fun _ _ => 0) [sampleA, sampleB]) ∧
    ((groupBySource (fun _ _ => 0) [sampleA, sampleB]).Pairwise
        (byCountDesc (fun g => g.2.length) (fun g => g.1) (fun _ _ => 0)) ∧
      ∀ a b : String × List Item,
        jsCmp (fun g => g.2.length) (fun g => g.1) (fun _ _ => 0) a b = 0 →
        [a, b] <+ groupPairs (fun item => jsOrS item.source "未分区")
            [sampleA, sampleB] →
        [a, b] <+ groupBySource (fun _ _ => 0) [sampleA, sampleB]) ∧
    ((siteGroups (fun _ _ => 0) [sampleA, sampleB]).Pairwise
        (byCountDesc (fun g => g.items.length) (fun g => g.siteName)
          (fun _ _ => 0)) ∧
      ∀ a b : SiteGroup,
        jsCmp (fun g => g.items.length) (fun g => g.siteName)
            (fun _ _ => 0) a b = 0 →
        [a, b] <+ siteGroupsRaw [sampleA, sampleB] →
        [a, b] <+ siteGroups (fun _ _ => 0) [sampleA, sampleB])) :=
  ⟨fun _ _ _ h _ => h, fun _ _ => Or.inl le_rfl,
    c5_sorted_descending_stable (fun _ _ => 0)
      (fun _ _ _ h _ => h) (fun _ _ => Or.inl le_rfl) [sampleA, sampleB]⟩

/-- C6 as stated is false: renderItemNode shows the bilingual zh/en pair
whenever both translations exist and differ, ignoring a present title
field, so the displayed primary title is not the title field. -/
theorem c6_counterexample :
    c6item.title ≠ "" ∧ (renderTitle c6item).primaryText ≠ c6item.title := by
  decide

/-- C6 amended: pickTitle (Vue variants) prefers title, then title_zh, then
title_en, then the placeholder; renderItemNode (vanilla variants) follows
the same chain only outside the bilingual case: when both trimmed
translations are nonempty and distinct it shows zh with an en subtitle
regardless of title. -/
theorem c6_amended_title_resolution (item : Item) :
    (item.title ≠ "" → pickTitle item = item.title) ∧
    (item.title = "" → item.title_zh ≠ "" → pickTitle item = item.title_zh) ∧
    (item.title = "" → item.title_zh = "" → item.title_en ≠ "" →
      pickTitle item = item.title_en) ∧
    (item.title = "" → item.title_zh = "" → item.title_en = "" →
      pickTitle item = "无标题") ∧
    (jsTrim item.title_zh ≠ "" → jsTrim item.title_en ≠ "" →
      jsTrim item.title_zh ≠ jsTrim item.title_en →
      renderTitle item =
        .bilingual (jsTrim item.title_zh) (jsTrim item.title_en)) ∧
    (¬(jsTrim item.title_zh ≠ "" ∧ jsTrim item.title_en ≠ "" ∧
        jsTrim item.title_zh ≠ jsTrim item.title_en) →
      renderTitle item =
        .single (jsOrS item.title
          (jsOrS (jsTrim item.title_zh) (jsTrim item.title_en)))) := by
  refine ⟨?_, ?_, ?_, ?_, ?_, ?_⟩
  · intro h; simp [pickTitle, jsOrS, h]
  · intro h1 h2; simp [pickTitle, jsOrS, h1, h2]
  · intro h1 h2 h3; simp [pickTitle, jsOrS, h1, h2, h3]
  · intro h1 h2 h3; simp [pickTitle, jsOrS, h1, h2, h3]
  · intro h1 h2 h3; simp [renderTitle, h1, h2, h3]
  · intro h; simp only [renderTitle]; rw [if_neg h]

/-- Witness for the amended C6 at the trilingual item. -/
theorem c6_amended_title_resolution_witness :
    pickTitle c6item = "primary" ∧
      renderTitle c6item = TitleView.bilingual "zh-title" "en-title" := by
  have h1 := (c6_amended_title_resolution c6item).1 (by decide)
  have h2 := (c6_amended_title_resolution c6item).2.2.2.2.1
    (by decide) (by decide) (by decide)
  refine ⟨by rw [h1]; decide, by rw [h2]; decide⟩

/-- C7: loadNewsData returns the parsed JSON payload exactly when the
response is ok (2xx), and on every non-ok status it fails with a message
containing the numeric status; the model performs the single fetch the
source performs, with no retry. -/
theorem c7_load_ok_iff_status_error (r : FetchResponse) (p : Payload) :
    (respOk r = true → r.jsonBody = .ok p → loadNewsData r = .ok p) ∧
    (loadNewsData r = .ok p → respOk r = true ∧ r.jsonBody = .ok p) ∧
    (respOk r = false →
      ∃ pre post,
        loadNewsData r = .error (pre ++ toString r.status ++ post)) := by
  refine ⟨?_, ?_, ?_⟩
  · intro h hb
    simp [loadNewsData, h, hb]
  · intro h
    by_cases hok : respOk r
    · rw [loadNewsData, if_pos hok] at h
      exact ⟨hok, h⟩
    · rw [loadNewsData, if_neg hok] at h
      exact absurd h (by simp)
  · intro h
    refine ⟨"加载 latest-24h.json 失败: ", "", ?_⟩
    rw [loadNewsData, if_neg (by simp [h])]
    simp

/-- Witness for C7 at a concrete HTTP 500 response. -/
theorem c7_load_ok_iff_status_error_witness :
    respOk resp500 = false ∧
      (∃ pre post, loadNewsData resp500 = .error (pre ++ "500" ++ post)) := by
  refine ⟨by decide, ?_⟩
  have h := (c7_load_ok_iff_status_error resp500 emptyPayload).2.2 (by decide)
  exact h

/-- C8 as stated is false in one spot: on a failed load the timestamp slot
shows the fixed text of a generic failure notice, not the error message;
the error message appears only in the list area, while every item
collection is indeed empty. -/
theorem c8_counterexample :
    (init (fun _ => "时间未知") (.error c8err)).itemsAi = [] ∧
    (init (fun _ => "时间未知") (.error c8err)).updatedAtText ≠ c8err ∧
    (init (fun _ => "时间未知") (.error c8err)).newsList =
      ListSink.errorText c8err := by
  refine ⟨rfl, by decide, rfl⟩

/-- C8 amended: after a failed load, every view-state item collection is
empty (no partial payload is applied), the timestamp slot shows the fixed
failure notice, and the list area shows the error message; likewise in the
Vue variant, whose loadError carries the message, whose label shows the
fixed notice, and whose empty-list text is the message. -/
theorem c8_amended_error_state (fmt : Option String → String) (msg : String)
    (hmsg : msg ≠ "") :
    (init fmt (.error msg)).itemsAi = [] ∧
    (init fmt (.error msg)).itemsAll = [] ∧
    (init fmt (.error msg)).itemsAllRaw = [] ∧
    (init fmt (.error msg)).followOpmlItems = [] ∧
    (init fmt (.error msg)).updatedAtText = "新闻数据加载失败" ∧
    (init fmt (.error msg)).newsList = ListSink.errorText msg ∧
    (mounted (.error msg)).followItems = [] ∧
    (mounted (.error msg)).followGroups = [] ∧
    (mounted (.error msg)).momoyuItems = [] ∧
    (mounted (.error msg)).loadError = msg ∧
    updatedLabel fmt (mounted (.error msg)) = "数据加载失败" ∧
    followEmptyText (mounted (.error msg)) = msg := by
  refine ⟨rfl, rfl, rfl, rfl, rfl, rfl, rfl, rfl, rfl, ?_, ?_, ?_⟩
  · simp [mounted, hmsg]
  · simp [updatedLabel, mounted, hmsg]
  · simp [followEmptyText, jsOrS, mounted, hmsg]

/-- Witness for the amended C8 at a concrete failure message. -/
theorem c8_amended_error_state_witness :
    c8err ≠ "" ∧
      ((init (fun _ => "时间未知") (.error c8err)).itemsAi = [] ∧
        (init (fun _ => "时间未知") (.error c8err)).itemsAll = [] ∧
        (init (fun _ => "时间未知") (.error c8err)).itemsAllRaw = [] ∧
        (init (fun _ => "时间未知") (.error c8err)).followOpmlItems = [] ∧
        (init (fun _ => "时间未知") (.error c8err)).updatedAtText =
          "新闻数据加载失败" ∧
        (init (fun _ => "时间未知") (.error c8err)).newsList =
          ListSink.errorText c8err ∧
        (mounted (.error c8err)).followItems = [] ∧
        (mounted (.error c8err)).followGroups = [] ∧
        (mounted (.error c8err)).momoyuItems = [] ∧
        (mounted (.error c8err)).loadError = c8err ∧
        updatedLabel (fun _ => "时间未知") (mounted (.error c8err)) =
          "数据加载失败" ∧
        followEmptyText (mounted (.error c8err)) = c8err) :=
  ⟨by decide,
    c8_amended_error_state (fun _ => "时间未知") c8err (by decide)⟩

/-- C9 as stated is false in one spot: when the stored value parses to an
array (for instance the stored text is a JSON array literal), the function
returns that array, which is not a plain object; a JavaScript array passes
both the truthiness check and the typeof object check. -/
theorem c9_counterexample :
    (readAccordionState (fun _ => .ok (Json.arr []))
        (.ok (some "[]"))).isObj = false ∧
      readAccordionState (fun _ => .ok (Json.arr [])) (.ok (some "[]")) =
        Json.arr [] := by
  constructor
  · rfl
  · rfl

/-- C9 amended: storage failures are swallowed and never propagate: a
thrown read, a missing key, an empty stored string, a parse failure and a
non-object parse result all yield the empty object; otherwise the parsed
value is returned and is a truthy value of typeof object (a plain object or
an array); writeAccordionState always returns normally. -/
theorem c9_amended_failures_swallowed (parse : String → Except Unit Json)
    (g : Except Unit (Option String)) :
    readAccordionState parse (.error ()) = Json.obj [] ∧
    readAccordionState parse (.ok none) = Json.obj [] ∧
    readAccordionState parse (.ok (some "")) = Json.obj [] ∧
    (∀ raw, parse raw = .error () →
      readAccordionState parse (.ok (some raw)) = Json.obj []) ∧
    (readAccordionState parse g = Json.obj [] ∨
      ((readAccordionState parse g).truthy = true ∧
        (readAccordionState parse g).isTypeofObject = true)) ∧
    (∀ w, writeAccordionState w = Except.ok ()) := by
  refine ⟨rfl, rfl, rfl, ?_, ?_, ?_⟩
  · intro raw hp
    by_cases h0 : raw = ""
    · simp [readAccordionState, h0]
    · simp [readAccordionState, h0, hp]
  · match g with
    | .error e => exact Or.inl rfl
    | .ok none => exact Or.inl rfl
    | .ok (some raw) =>
      by_cases h0 : raw = ""
      · exact Or.inl (by simp [readAccordionState, h0])
      · match hp : parse raw with
        | .error e => exact Or.inl (by simp [readAccordionState, h0, hp])
        | .ok parsed =>
          by_cases ht : parsed.truthy && parsed.isTypeofObject
          · refine Or.inr ?_
            have hr : readAccordionState parse (.ok (some raw)) = parsed := by
              simp [readAccordionState, h0, hp, ht]
            rw [hr]
            exact ⟨(Bool.and_eq_true .. |>.mp ht).1,
              (Bool.and_eq_true .. |>.mp ht).2⟩
          · exact Or.inl (by simp [readAccordionState, h0, hp, ht])
  · intro w
    match w with
    | .ok u => rfl
    | .error e => rfl

/-- Witness for the amended C9: a parse that always throws yields the empty
object. -/
theorem c9_amended_failures_swallowed_witness :
    (fun (_ : String) => (Except.error () : Except Unit Json)) "x" =
        .error () ∧
      readAccordionState (fun _ => .error ()) (.ok (some "x")) =
        Json.obj [] := by
  refine ⟨rfl, ?_⟩
  exact (c9_amended_failures_swallowed (fun _ => .error ())
    (.ok (some "x"))).2.2.2.1 "x" rfl

/-- Assignment followed by lookup yields the assigned boolean. -/
theorem jsGet_jsSet (m : List (String × Bool)) (k : String) (b : Bool) :
    jsGet (jsSet m k b) k = some b := by
  induction m with
  | nil => simp [jsSet, jsGet]
  | cons p t ih =>
    obtain ⟨k', v⟩ := p
    by_cases h : k' = k
    · simp [jsSet, jsGet, h]
    · simp only [jsSet, jsGet, if_neg h]
      exact ih

/-- Code points of characters are below the Unicode bound. -/
theorem charToNat_lt (c : Char) : c.toNat < 1114112 := by
  have h := c.valid
  show c.val.toNat < 1114112
  rcases h with h | ⟨_, h⟩ <;> omega

/-- Characters with equal code points are equal. -/
theorem charToNat_inj {c1 c2 : Char} (h : c1.toNat = c2.toNat) : c1 = c2 :=
  Char.ext (UInt32.toNat.inj h)

/-- UTF-8 encodings are prefix-free: equal streams starting with the
encodings of two code points force the code points and the remainders to
agree (the leading byte determines the branch). -/
theorem utf8Bytes_cancel {n1 n2 : Nat} (h1 : n1 < 1114112) (h2 : n2 < 1114112)
    {t1 t2 : List Nat} (h : utf8Bytes n1 ++ t1 = utf8Bytes n2 ++ t2) :
    n1 = n2 ∧ t1 = t2 := by
  unfold utf8Bytes at h
  split_ifs at h <;>
    simp only [List.cons_append, List.nil_append, List.cons.injEq] at h <;>
    refine ⟨by omega, ?_⟩ <;> first | tauto | (exfalso; omega)

/-- All UTF-8 bytes are below 256. -/
theorem utf8Bytes_lt256 (n : Nat) (hn : n < 1114112) :
    ∀ b ∈ utf8Bytes n, b < 256 := by
  intro b hb
  unfold utf8Bytes at hb
  split_ifs at hb <;> simp at hb <;> omega

/-- A UTF-8 encoding is never empty. -/
theorem utf8Bytes_ne_nil (n : Nat) : utf8Bytes n ≠ [] := by
  unfold utf8Bytes
  split_ifs <;> simp

/-- Distinct digits below sixteen have distinct hex characters. -/
theorem hexDigit_inj {a b : Nat} (ha : a < 16) (hb : b < 16)
    (h : hexDigit a = hexDigit b) : a = b := by
  interval_cases a <;> interval_cases b <;> simp_all [hexDigit]

/-- Percent escapes of bytes cancel on a shared stream. -/
theorem pctByte_cancel {b1 b2 : Nat} (h1 : b1 < 256) (h2 : b2 < 256)
    {t1 t2 : List Char} (h : pctByte b1 ++ t1 = pctByte b2 ++ t2) :
    b1 = b2 ∧ t1 = t2 := by
  simp only [pctByte, List.cons_append, List.nil_append, List.cons.injEq] at h
  obtain ⟨-, hh, hl, ht⟩ := h
  have e1 : b1 / 16 = b2 / 16 := hexDigit_inj (by omega) (by omega) hh
  have e2 : b1 % 16 = b2 % 16 := hexDigit_inj (by omega) (by omega) hl
  exact ⟨by omega, ht⟩

/-- When a shorter byte list opens a shared percent-escape stream, it is a
prefix of the longer one and the remainder is the stream of the leftover
bytes. -/
theorem pct_prefix_extract : ∀ (bs1 bs2 : List Nat) (t1 t2 : List Char),
    (∀ b ∈ bs1, b < 256) → (∀ b ∈ bs2, b < 256) →
    bs1.length ≤ bs2.length →
    bs1.flatMap pctByte ++ t1 = bs2.flatMap pctByte ++ t2 →
    ∃ d, bs2 = bs1 ++ d ∧ t1 = d.flatMap pctByte ++ t2 := by
  intro bs1
  induction bs1 with
  | nil =>
    intro bs2 t1 t2 _ _ _ h
    exact ⟨bs2, rfl, by simpa using h⟩
  | cons b bs ih =>
    intro bs2 t1 t2 hb1 hb2 hlen h
    cases bs2 with
    | nil => simp at hlen
    | cons b2 bs2' =>
      simp only [List.flatMap_cons, List.append_assoc] at h
      obtain ⟨hbeq, hrest⟩ :=
        pctByte_cancel (hb1 b (by simp)) (hb2 b2 (by simp)) h
      obtain ⟨d, hpre, ht⟩ := ih bs2' t1 t2
        (fun x hx => hb1 x (by simp [hx]))
        (fun x hx => hb2 x (by simp [hx])) (by simpa using hlen) hrest
      exact ⟨d, by simp [hbeq, hpre], ht⟩

/-- Unreserved characters are not the percent sign. -/
theorem unreserved_ne_pct {c : Char} (h : isUnreserved c = true) : c ≠ '%' := by
  intro e
  subst e
  exact absurd h (by decide)

/-- An escaped character's encoding opens with the percent sign. -/
theorem encChar_head_pct {c : Char} (h : isUnreserved c = false) :
    ∃ rest, encChar c = '%' :: rest := by
  unfold encChar
  rw [h]
  cases hu : utf8Bytes c.toNat with
  | nil => exact absurd hu (utf8Bytes_ne_nil _)
  | cons b bs =>
    refine ⟨hexDigit (b / 16) :: hexDigit (b % 16) :: bs.flatMap pctByte, ?_⟩
    simp [hu, pctByte]

/-- A character's encoding is never empty. -/
theorem encChar_ne_nil (c : Char) : encChar c ≠ [] := by
  by_cases hu : isUnreserved c
  · simp [encChar, hu]
  · obtain ⟨rest, hr⟩ := encChar_head_pct (by simpa using hu)
    simp [hr]

/-- Character encodings cancel on a shared stream. -/
theorem encChar_cancel {c1 c2 : Char} {t1 t2 : List Char}
    (h : encChar c1 ++ t1 = encChar c2 ++ t2) : c1 = c2 ∧ t1 = t2 := by
  by_cases u1 : isUnreserved c1 <;> by_cases u2 : isUnreserved c2
  · have e1 : encChar c1 = [c1] := by simp [encChar, u1]
    have e2 : encChar c2 = [c2] := by simp [encChar, u2]
    rw [e1, e2] at h
    simpa using h
  · obtain ⟨rest, hr⟩ := encChar_head_pct (by simpa using u2)
    have e1 : encChar c1 = [c1] := by simp [encChar, u1]
    rw [e1, hr] at h
    simp only [List.cons_append, List.nil_append, List.cons.injEq] at h
    exact absurd h.1 (unreserved_ne_pct u1)
  · obtain ⟨rest, hr⟩ := encChar_head_pct (by simpa using u1)
    have e2 : encChar c2 = [c2] := by simp [encChar, u2]
    rw [e2, hr] at h
    simp only [List.cons_append, List.nil_append, List.cons.injEq] at h
    exact absurd h.1.symm (unreserved_ne_pct u2)
  · have hb1 := utf8Bytes_lt256 c1.toNat (charToNat_lt c1)
    have hb2 := utf8Bytes_lt256 c2.toNat (charToNat_lt c2)
    have e1 : encChar c1 = (utf8Bytes c1.toNat).flatMap pctByte := by
      simp [encChar, u1]
    have e2 : encChar c2 = (utf8Bytes c2.toNat).flatMap pctByte := by
      simp [encChar, u2]
    rw [e1, e2] at h
    rcases Nat.le_total (utf8Bytes c1.toNat).length
        (utf8Bytes c2.toNat).length with hle | hle
    · obtain ⟨d, hpre, ht⟩ := pct_prefix_extract _ _ _ _ hb1 hb2 hle h
      have hc := @utf8Bytes_cancel c2.toNat c1.toNat (charToNat_lt c2)
        (charToNat_lt c1) [] d (by simpa using hpre)
      refine ⟨(charToNat_inj hc.1).symm, ?_⟩
      rw [ht, ← hc.2]
      simp
    · obtain ⟨d, hpre, ht⟩ := pct_prefix_extract _ _ _ _ hb2 hb1 hle h.symm
      have hc := @utf8Bytes_cancel c1.toNat c2.toNat (charToNat_lt c1)
        (charToNat_lt c2) [] d (by simpa using hpre)
      refine ⟨charToNat_inj hc.1, ?_⟩
      rw [ht, ← hc.2]
      simp

/-- The concatenated character encoding of a whole string is injective. -/
theorem encStream_cancel : ∀ l1 l2 : List Char,
    l1.flatMap encChar = l2.flatMap encChar → l1 = l2 := by
  intro l1
  induction l1 with
  | nil =>
    intro l2 h
    cases l2 with
    | nil => rfl
    | cons c t =>
      rw [List.flatMap_nil, List.flatMap_cons] at h
      exact absurd (List.append_eq_nil.mp h.symm).1 (encChar_ne_nil c)
  | cons c t ih =>
    intro l2 h
    cases l2 with
    | nil =>
      rw [List.flatMap_nil, List.flatMap_cons] at h
      exact absurd (List.append_eq_nil.mp h).1 (encChar_ne_nil c)
    | cons c2 t2 =>
      rw [List.flatMap_cons, List.flatMap_cons] at h
      obtain ⟨hc, ht⟩ := encChar_cancel h
      rw [hc, ih t2 ht]

/-- Injectivity of the modelled encodeURIComponent. -/
theorem encodeURIComponent_inj {s1 s2 : String}
    (h : encodeURIComponent s1 = encodeURIComponent s2) : s1 = s2 := by
  have hd : s1.data.flatMap encChar = s2.data.flatMap encChar :=
    congrArg String.data h
  have hdata := encStream_cancel _ _ hd
  cases s1
  cases s2
  exact congrArg String.mk hdata

/-- Hex digit characters are never the bar character. -/
theorem hexDigit_ne_bar (x : Nat) : hexDigit x ≠ '|' := by
  unfold hexDigit
  split <;> decide

/-- A character encoding never contains the bar character. -/
theorem encChar_no_bar (c : Char) : '|' ∉ encChar c := by
  unfold encChar
  split_ifs with hu
  · intro hm
    rw [List.mem_singleton] at hm
    subst hm
    exact absurd hu (by decide)
  · intro hm
    rw [List.mem_flatMap] at hm
    obtain ⟨b, _, hb⟩ := hm
    simp only [pctByte, List.mem_cons, List.not_mem_nil, or_false] at hb
    rcases hb with e | e | e
    · exact absurd e (by decide)
    · exact hexDigit_ne_bar _ e.symm
    · exact hexDigit_ne_bar _ e.symm

/-- An encoded string never contains the bar character. -/
theorem encodeURIComponent_no_bar (s : String) :
    '|' ∉ (encodeURIComponent s).data := by
  intro hm
  have hm' : '|' ∈ s.data.flatMap encChar := hm
  rw [List.mem_flatMap] at hm'
  obtain ⟨c, _, hc⟩ := hm'
  exact encChar_no_bar c hc

/-- A bar-join tail is empty or opens with the bar character. -/
theorem barTail_shape (xs : List (List Char)) :
    barTail xs = [] ∨ ∃ s, barTail xs = '|' :: s := by
  cases xs with
  | nil => exact Or.inl rfl
  | cons y ys => exact Or.inr ⟨y ++ barTail ys, rfl⟩

/-- Appending bar-opened (or empty) remainders to bar-free heads cancels. -/
theorem barFree_split : ∀ (x1 x2 r1 r2 : List Char), '|' ∉ x1 → '|' ∉ x2 →
    (r1 = [] ∨ ∃ s, r1 = '|' :: s) → (r2 = [] ∨ ∃ s, r2 = '|' :: s) →
    x1 ++ r1 = x2 ++ r2 → x1 = x2 ∧ r1 = r2 := by
  intro x1
  induction x1 with
  | nil =>
    intro x2 r1 r2 _ hb2 hr1 hr2 h
    cases x2 with
    | nil => exact ⟨rfl, h⟩
    | cons c x2' =>
      exfalso
      rcases hr1 with rfl | ⟨s, rfl⟩
      · simp at h
      · rw [List.nil_append, List.cons_append, List.cons.injEq] at h
        exact hb2 (h.1 ▸ List.mem_cons_self c x2')
  | cons c x1' ih =>
    intro x2 r1 r2 hb1 hb2 hr1 hr2 h
    cases x2 with
    | nil =>
      exfalso
      rcases hr2 with rfl | ⟨s, rfl⟩
      · simp at h
      · rw [List.nil_append, List.cons_append, List.cons.injEq] at h
        exact hb1 (h.1 ▸ List.mem_cons_self c x1')
    | cons c2 x2' =>
      rw [List.cons_append, List.cons_append, List.cons.injEq] at h
      obtain ⟨he, ht⟩ := ih x2' r1 r2 (fun m => hb1 (List.mem_cons_of_mem c m))
        (fun m => hb2 (List.mem_cons_of_mem c2 m)) hr1 hr2 h.2
      exact ⟨by rw [h.1, he], ht⟩

/-- Bar-join tails over bar-free groups are injective. -/
theorem barGroups_inj : ∀ xs1 xs2 : List (List Char),
    (∀ l ∈ xs1, '|' ∉ l) → (∀ l ∈ xs2, '|' ∉ l) →
    barTail xs1 = barTail xs2 → xs1 = xs2 := by
  intro xs1
  induction xs1 with
  | nil =>
    intro xs2 _ _ h
    cases xs2 with
    | nil => rfl
    | cons z zs => simp [barTail] at h
  | cons y ys ih =>
    intro xs2 hb1 hb2 h
    cases xs2 with
    | nil => simp [barTail] at h
    | cons z zs =>
      simp only [barTail, List.flatMap_cons, List.cons_append,
        List.cons.injEq, true_and] at h
      obtain ⟨he, ht⟩ := barFree_split y z (barTail ys) (barTail zs)
        (hb1 y (List.mem_cons_self y ys)) (hb2 z (List.mem_cons_self z zs))
        (barTail_shape ys) (barTail_shape zs) h
      rw [he, ih zs (fun l m => hb1 l (List.mem_cons_of_mem y m))
        (fun l m => hb2 l (List.mem_cons_of_mem z m)) ht]

/-- Character-level form of the bar-separated fold inside
String.intercalate. -/
theorem intercalate_go_data : ∀ (as : List String) (acc : String),
    (String.intercalate.go acc "|" as).data =
      acc.data ++ as.flatMap (fun a => '|' :: a.data) := by
  intro as
  induction as with
  | nil =>
    intro acc
    simp [String.intercalate.go]
  | cons a as ih =>
    intro acc
    rw [String.intercalate.go, ih]
    have hbar : ("|" : String).data = ['|'] := rfl
    simp [hbar, List.append_assoc]

/-- Character-level form of a composite accordion id with at least one
part. -/
theorem makeAccordionId_data (x : String) (xs : List String) :
    (makeAccordionId (x :: xs)).data =
      (encodeURIComponent x).data ++
        barTail (xs.map (fun a => (encodeURIComponent a).data)) := by
  have h0 : makeAccordionId (x :: xs) =
      String.intercalate.go (encodeURIComponent x) "|"
        (xs.map encodeURIComponent) := by
    rw [makeAccordionId, List.map_cons, String.intercalate]
  rw [h0, intercalate_go_data]
  congr 1
  simp [barTail, List.flatMap_map]

/-- Composite accordion ids of nonempty part lists are injective. -/
theorem makeAccordionId_inj_of_ne_nil : ∀ (xs ys : List String),
    xs ≠ [] → ys ≠ [] → makeAccordionId xs = makeAccordionId ys → xs = ys := by
  intro xs ys hx hy h
  match xs, ys with
  | x :: xs', y :: ys' =>
    have hd := congrArg String.data h
    rw [makeAccordionId_data, makeAccordionId_data] at hd
    obtain ⟨h1, h2⟩ := barFree_split _ _ _ _
      (encodeURIComponent_no_bar x) (encodeURIComponent_no_bar y)
      (barTail_shape _) (barTail_shape _) hd
    have hxy : x = y := encodeURIComponent_inj (String.ext h1)
    have hinj : Function.Injective (fun a => (encodeURIComponent a).data) :=
      fun a b hab => encodeURIComponent_inj (String.ext hab)
    have hmap := barGroups_inj _ _
      (fun l hl => by
        obtain ⟨a, -, rfl⟩ := List.mem_map.mp hl
        exact encodeURIComponent_no_bar a)
      (fun l hl => by
        obtain ⟨a, -, rfl⟩ := List.mem_map.mp hl
        exact encodeURIComponent_no_bar a) h2
    have htails : xs' = ys' := List.map_injective_iff.mpr hinj hmap
    rw [hxy, htails]

/-- C10 as stated is false in one spot: makeAccordionId is not injective on
all part lists, because the empty list and the singleton empty string both
encode to the empty id. -/
theorem c10_counterexample :
    makeAccordionId [] = makeAccordionId [""] ∧ ([] : List String) ≠ [""] :=
  ⟨rfl, by simp⟩

/-- C10 amended: the accordion boolean round-trips through the persisted
map (recording b under k and re-reading the stored object yields exactly b
at k), and makeAccordionId is injective on nonempty part lists — in
particular a site-level key and a source-level key never collide.  The
parse hypothesis is the stringify/parse round-trip contract of the external
JSON primitives on plain objects. -/
theorem c10_roundtrip_and_injectivity (parse : String → Except Unit Json)
    (str : String) (m : List (String × Bool)) (k : String) (b : Bool)
    (hstr : str ≠ "")
    (hparse : parse str = .ok (accJson (jsSet m k b))) :
    (readAccordionState parse (.ok (some str)) = accJson (jsSet m k b) ∧
      jsGet (jsSet m k b) k = some b) ∧
    (∀ xs ys : List String, xs ≠ [] → ys ≠ [] →
      makeAccordionId xs = makeAccordionId ys → xs = ys) ∧
    (∀ id ctx name : String,
      makeAccordionId ["site", id] ≠
        makeAccordionId ["source", ctx, name]) := by
  refine ⟨⟨?_, jsGet_jsSet m k b⟩, makeAccordionId_inj_of_ne_nil, ?_⟩
  · simp [readAccordionState, hstr, hparse, accJson, Json.truthy,
      Json.isTypeofObject]
  · intro id ctx name h
    have := makeAccordionId_inj_of_ne_nil _ _ (by simp) (by simp) h
    simp at this

/-- Witness for the amended C10 at a concrete store and key. -/
theorem c10_roundtrip_and_injectivity_witness :
    ("x" : String) ≠ "" ∧
      (fun (s : String) =>
          if s = "x" then Except.ok (accJson (jsSet [] "a" true))
          else (Except.error () : Except Unit Json)) "x" =
        .ok (accJson (jsSet [] "a" true)) ∧
      ((readAccordionState
            (fun s =>
              if s = "x" then Except.ok (accJson (jsSet [] "a" true))
              else (Except.error () : Except Unit Json))
            (.ok (some "x")) = accJson (jsSet [] "a" true) ∧
          jsGet (jsSet [] "a" true) "a" = some true) ∧
        (∀ xs ys : List String, xs ≠ [] → ys ≠ [] →
          makeAccordionId xs = makeAccordionId ys → xs = ys) ∧
        (∀ id ctx name : String,
          makeAccordionId ["site", id] ≠
            makeAccordionId ["source", ctx, name])) :=
  ⟨by decide, by simp,
    c10_roundtrip_and_injectivity _ "x" [] "a" true (by decide) (by simp)⟩

end NewsRadar
